import Mathlib

set_option autoImplicit false

/-!
Verification of the SkillForge API-first backend (TypeScript, in-memory stores).

The TypeScript sources are shallowly embedded: each in-memory `Map<string, T>`
store becomes an insertion-ordered association list, each request handler a pure
function from an `AppState` to a response paired with the next `AppState`.
JS `Date` values are modelled as natural-number timestamps supplied by the
caller (`now`), and the `Date.now()`-plus-random id generation is modelled by an
explicit fresh-id argument.  External collaborators (bcrypt, Stripe, JWT) are
modelled by explicit arguments carrying their results, matching the await sites
in the controllers.
-/

namespace SkillForge

/-- UserRole from src/types/auth.types.ts. -/
inductive UserRole where
  | student
  | instructor
  | admin
deriving DecidableEq

/-- PaymentStatus from src/types/payment.types.ts. -/
inductive PaymentStatus where
  | pending
  | succeeded
  | failed
  | canceled
  | refunded
deriving DecidableEq

/-- CourseLevel from src/types/course.types.ts. -/
inductive CourseLevel where
  | beginner
  | intermediate
  | advanced
  | allLevels
deriving DecidableEq

/-- LessonType from src/types/course.types.ts. -/
inductive LessonType where
  | video
  | text
  | interactive
  | assignment
deriving DecidableEq

/-- Resource from src/types/course.types.ts; `type` is one of pdf/link/download. -/
structure Resource where
  id : String
  title : String
  type : String
  url : String
  size : Option Nat := none
deriving DecidableEq

/-- LessonContent from src/types/course.types.ts; the untyped
`interactiveContent` payload is modelled as an optional opaque string. -/
structure LessonContent where
  videoUrl : Option String := none
  textContent : Option String := none
  interactiveContent : Option String := none
  assignmentInstructions : Option String := none
  resources : Option (List Resource) := none
deriving DecidableEq

/-- Lesson from src/types/course.types.ts. -/
structure Lesson where
  id : String
  title : String
  description : String
  order : Nat
  type : LessonType
  content : LessonContent
  duration : Nat
  isPreview : Bool
deriving DecidableEq

/-- The `string | string[]` correct answer of a quiz question. -/
inductive QuizAnswer where
  | single (answer : String)
  | multiple (answers : List String)
deriving DecidableEq

/-- QuizQuestion from src/types/course.types.ts. -/
structure QuizQuestion where
  id : String
  question : String
  type : String
  options : Option (List String) := none
  correctAnswer : QuizAnswer
  explanation : Option String := none
  points : Nat
deriving DecidableEq

/-- Quiz from src/types/course.types.ts. -/
structure Quiz where
  id : String
  title : String
  description : String
  questions : List QuizQuestion
  passingScore : Nat
  timeLimit : Option Nat := none
deriving DecidableEq

/-- CourseModule from src/types/course.types.ts. -/
structure CourseModule where
  id : String
  title : String
  description : String
  order : Nat
  duration : Nat
  lessons : List Lesson
  quiz : Option Quiz := none
  isPreview : Bool
deriving DecidableEq

/-- Course from src/types/course.types.ts.  Numeric fields (price, rating) and
`Date` fields are modelled as naturals. -/
structure Course where
  id : String
  title : String
  description : String
  shortDescription : String
  instructorId : String
  instructorName : String
  category : String
  subcategory : String
  level : CourseLevel
  price : Nat
  currency : String
  thumbnail : String
  previewVideo : Option String := none
  duration : Nat
  modules : List CourseModule
  requirements : List String
  learningOutcomes : List String
  tags : List String
  rating : Nat
  reviewCount : Nat
  enrollmentCount : Nat
  isPublished : Bool
  createdAt : Nat
  updatedAt : Nat
deriving DecidableEq

/-- Notification preferences from src/types/user.types.ts. -/
structure NotificationPrefs where
  email : Bool
  push : Bool
  courseUpdates : Bool
  marketing : Bool
deriving DecidableEq

/-- The profileVisibility union type, public or private. -/
inductive ProfileVisibility where
  | visPublic
  | visPrivate
deriving DecidableEq

/-- Privacy preferences from src/types/user.types.ts. -/
structure PrivacyPrefs where
  profileVisibility : ProfileVisibility
  showProgress : Bool
deriving DecidableEq

/-- The learning difficulty union type. -/
inductive LearningDifficulty where
  | beginner
  | intermediate
  | advanced
deriving DecidableEq

/-- The learning pace union type. -/
inductive LearningPace where
  | slow
  | normal
  | fast
deriving DecidableEq

/-- Learning preferences from src/types/user.types.ts. -/
structure LearningPrefs where
  difficulty : LearningDifficulty
  pace : LearningPace
  reminderTime : Option String := none
deriving DecidableEq

/-- UserPreferences from src/types/user.types.ts. -/
structure UserPreferences where
  notifications : NotificationPrefs
  privacy : PrivacyPrefs
  learning : LearningPrefs
deriving DecidableEq

/-- CourseProgress from src/types/user.types.ts. -/
structure CourseProgress where
  courseId : String
  enrolledAt : Nat
  completedModules : List String
  currentModule : Option String := none
  progressPercentage : Nat
  lastAccessedAt : Nat
  certificateEarned : Option Bool := none
  certificateUrl : Option String := none
deriving DecidableEq

/-- User from src/types/user.types.ts; `password` holds the bcrypt hash. -/
structure User where
  id : String
  email : String
  password : String
  firstName : String
  lastName : String
  role : UserRole
  avatar : Option String := none
  bio : Option String := none
  skills : List String
  preferences : UserPreferences
  progress : List CourseProgress
  createdAt : Nat
  updatedAt : Nat
deriving DecidableEq

/-- PaymentIntent from src/types/payment.types.ts. -/
structure PaymentIntent where
  id : String
  amount : Nat
  currency : String
  status : PaymentStatus
  courseId : String
  userId : String
  stripePaymentIntentId : String
  createdAt : Nat
  updatedAt : Nat
deriving DecidableEq

/-! ### In-memory stores

Each model file holds a `Map<string, T>`: insertion-ordered, unique string
keys.  We model it as an association list; `mapSet` replaces in place when the
key is present (JS `Map.set` keeps the insertion position) and appends
otherwise, `mapGet` returns the first binding, mirroring JS `Map` exactly on
the unique-key lists a `Map` can produce. -/

/-- An in-memory store: insertion-ordered key-value list. -/
abbrev Store (T : Type) := List (String × T)

/-- JS `Map.get`, `undefined` becoming `none`. -/
def mapGet {T : Type} : Store T → String → Option T
  | [], _ => none
  | kp :: rest, k => if kp.1 == k then some kp.2 else mapGet rest k

/-- JS `Map.has`. -/
def mapHas {T : Type} (m : Store T) (k : String) : Bool :=
  (mapGet m k).isSome

/-- JS `Map.set`: replace in place if present, append otherwise. -/
def mapSet {T : Type} : Store T → String → T → Store T
  | [], k, v => [(k, v)]
  | kp :: rest, k, v => if kp.1 == k then (k, v) :: rest else kp :: mapSet rest k v

/-- JS `Map.delete` (dropping the binding; the returned Bool is `mapHas`). -/
def mapDelete {T : Type} (m : Store T) (k : String) : Store T :=
  m.filter (fun kp => kp.1 != k)

/-- JS `Map.values()` in insertion order. -/
def mapValues {T : Type} (m : Store T) : List T :=
  m.map (fun kp => kp.2)

/-- Well-formedness a JS `Map` guarantees and the models maintain: keys are
unique and every payment record is stored under its own id. -/
@[reducible]
def paymentsWF (m : Store PaymentIntent) : Prop :=
  (m.map Prod.fst).Nodup ∧ ∀ kp ∈ m, kp.2.id = kp.1

/-! ### PaymentModel (src/models/Payment.ts) -/

/-- Partial update object for `PaymentModel.update` (TS `Partial<PaymentIntent>`);
absent fields are `none`. -/
structure PaymentPartial where
  id : Option String := none
  amount : Option Nat := none
  currency : Option String := none
  status : Option PaymentStatus := none
  courseId : Option String := none
  userId : Option String := none
  stripePaymentIntentId : Option String := none
  createdAt : Option Nat := none
  updatedAt : Option Nat := none
deriving DecidableEq

/-- The object spread merging a partial update into a payment record. -/
def mergePayment (p : PaymentIntent) (u : PaymentPartial) : PaymentIntent where
  id := u.id.getD p.id
  amount := u.amount.getD p.amount
  currency := u.currency.getD p.currency
  status := u.status.getD p.status
  courseId := u.courseId.getD p.courseId
  userId := u.userId.getD p.userId
  stripePaymentIntentId := u.stripePaymentIntentId.getD p.stripePaymentIntentId
  createdAt := u.createdAt.getD p.createdAt
  updatedAt := u.updatedAt.getD p.updatedAt

namespace PaymentModel

/-- PaymentModel.findById. -/
def findById (m : Store PaymentIntent) (id : String) : Option PaymentIntent :=
  mapGet m id

/-- PaymentModel.findByStripeId: linear scan over the values in insertion
order, returning the first record carrying the Stripe payment intent id. -/
def findByStripeId : Store PaymentIntent → String → Option PaymentIntent
  | [], _ => none
  | kp :: rest, sid =>
    if kp.2.stripePaymentIntentId == sid then some kp.2 else findByStripeId rest sid

/-- PaymentModel.update: merge the partial fields into the stored record,
refresh `updatedAt`, write back under the same key. -/
def update (m : Store PaymentIntent) (id : String) (u : PaymentPartial) (now : Nat) :
    Option PaymentIntent × Store PaymentIntent :=
  match mapGet m id with
  | none => (none, m)
  | some payment =>
    let updatedPayment := { mergePayment payment u with updatedAt := now }
    (some updatedPayment, mapSet m id updatedPayment)

/-- PaymentModel.findSuccessfulPayment: first payment of the given user for the
given course whose status is Succeeded. -/
def findSuccessfulPayment : Store PaymentIntent → String → String → Option PaymentIntent
  | [], _, _ => none
  | kp :: rest, userId, courseId =>
    if kp.2.userId == userId && kp.2.courseId == courseId
        && kp.2.status == PaymentStatus.succeeded then
      some kp.2
    else
      findSuccessfulPayment rest userId courseId

end PaymentModel

/-! ### UserModel (src/models/User.ts) -/

/-- UserModel.getDefaultPreferences. -/
def UserModel.getDefaultPreferences : UserPreferences where
  notifications := { email := true, push := true, courseUpdates := true, marketing := false }
  privacy := { profileVisibility := .visPublic, showProgress := true }
  learning := { difficulty := .intermediate, pace := .normal, reminderTime := none }

/-- Partial update object for `UserModel.updateProgress`
(TS `Partial<CourseProgress>`); request fields that are absent are `none`. -/
structure ProgressPartial where
  courseId : Option String := none
  enrolledAt : Option Nat := none
  completedModules : Option (List String) := none
  currentModule : Option String := none
  progressPercentage : Option Nat := none
  lastAccessedAt : Option Nat := none
  certificateEarned : Option Bool := none
  certificateUrl : Option String := none
deriving DecidableEq

/-- Object spread merging a progress partial into an existing record. -/
def mergeProgress (p : CourseProgress) (u : ProgressPartial) : CourseProgress where
  courseId := u.courseId.getD p.courseId
  enrolledAt := u.enrolledAt.getD p.enrolledAt
  completedModules := u.completedModules.getD p.completedModules
  currentModule := match u.currentModule with
    | some c => some c
    | none => p.currentModule
  progressPercentage := u.progressPercentage.getD p.progressPercentage
  lastAccessedAt := u.lastAccessedAt.getD p.lastAccessedAt
  certificateEarned := match u.certificateEarned with
    | some c => some c
    | none => p.certificateEarned
  certificateUrl := match u.certificateUrl with
    | some c => some c
    | none => p.certificateUrl

/-- The fresh CourseProgress pushed when no record for the course exists:
literal defaults overridden by the supplied partial (the push branch of
UserModel.updateProgress). -/
def pushProgress (courseId : String) (u : ProgressPartial) (now : Nat) : CourseProgress where
  courseId := u.courseId.getD courseId
  enrolledAt := u.enrolledAt.getD now
  completedModules := u.completedModules.getD []
  currentModule := u.currentModule
  progressPercentage := u.progressPercentage.getD 0
  lastAccessedAt := u.lastAccessedAt.getD now
  certificateEarned := u.certificateEarned
  certificateUrl := u.certificateUrl

/-- `progress.findIndex(p => p.courseId === courseId)` as a first-match lookup. -/
def findProgress : List CourseProgress → String → Option CourseProgress
  | [], _ => none
  | p :: rest, cid => if p.courseId == cid then some p else findProgress rest cid

/-- Number of progress records for the given course in a progress list. -/
def countProgress (l : List CourseProgress) (cid : String) : Nat :=
  (l.filter (fun p => p.courseId == cid)).length

/-- Replace the first progress entry for the course with the merged record
(the `findIndex >= 0` branch of UserModel.updateProgress). -/
def updateFirstProgress : List CourseProgress → String → ProgressPartial → List CourseProgress
  | [], _, _ => []
  | p :: rest, cid, u =>
    if p.courseId == cid then mergeProgress p u :: rest
    else p :: updateFirstProgress rest cid u

namespace UserModel

/-- UserModel.findById. -/
def findById (m : Store User) (id : String) : Option User :=
  mapGet m id

/-- UserModel.findByEmail: first user (insertion order) with the given email. -/
def findByEmail : Store User → String → Option User
  | [], _ => none
  | kp :: rest, e => if kp.2.email == e then some kp.2 else findByEmail rest e

/-- UserModel.create: the source assembles the record with a generated id and
current timestamps and inserts it; the id and clock are explicit here. -/
def create (m : Store User) (user : User) : Store User :=
  mapSet m user.id user

/-- UserModel.delete: returns whether the record existed, removing it. -/
def delete (m : Store User) (id : String) : Bool × Store User :=
  (mapHas m id, mapDelete m id)

/-- UserModel.updateProgress: merge into the first existing record for the
course, or push a new record with literal defaults; refresh the user
timestamp and write the user back. -/
def updateProgress (m : Store User) (userId courseId : String) (u : ProgressPartial)
    (now : Nat) : Bool × Store User :=
  match mapGet m userId with
  | none => (false, m)
  | some user =>
    let newList :=
      if (findProgress user.progress courseId).isSome then
        updateFirstProgress user.progress courseId u
      else
        user.progress ++ [pushProgress courseId u now]
    (true, mapSet m userId { user with progress := newList, updatedAt := now })

end UserModel

/-- Number of stored users carrying the given email. -/
def countEmail (m : Store User) (e : String) : Nat :=
  ((mapValues m).filter (fun u => u.email == e)).length

/-! ### CourseModel (src/models/Course.ts) -/

/-- Partial update object for `CourseModel.update` (TS `Partial<Course>`). -/
structure CoursePartial where
  id : Option String := none
  title : Option String := none
  description : Option String := none
  shortDescription : Option String := none
  instructorId : Option String := none
  instructorName : Option String := none
  category : Option String := none
  subcategory : Option String := none
  level : Option CourseLevel := none
  price : Option Nat := none
  currency : Option String := none
  thumbnail : Option String := none
  previewVideo : Option String := none
  duration : Option Nat := none
  modules : Option (List CourseModule) := none
  requirements : Option (List String) := none
  learningOutcomes : Option (List String) := none
  tags : Option (List String) := none
  rating : Option Nat := none
  reviewCount : Option Nat := none
  enrollmentCount : Option Nat := none
  isPublished : Option Bool := none
  createdAt : Option Nat := none
  updatedAt : Option Nat := none
deriving DecidableEq

/-- Object spread merging a course partial into a course record. -/
def mergeCourse (c : Course) (u : CoursePartial) : Course where
  id := u.id.getD c.id
  title := u.title.getD c.title
  description := u.description.getD c.description
  shortDescription := u.shortDescription.getD c.shortDescription
  instructorId := u.instructorId.getD c.instructorId
  instructorName := u.instructorName.getD c.instructorName
  category := u.category.getD c.category
  subcategory := u.subcategory.getD c.subcategory
  level := u.level.getD c.level
  price := u.price.getD c.price
  currency := u.currency.getD c.currency
  thumbnail := u.thumbnail.getD c.thumbnail
  previewVideo := match u.previewVideo with
    | some v => some v
    | none => c.previewVideo
  duration := u.duration.getD c.duration
  modules := u.modules.getD c.modules
  requirements := u.requirements.getD c.requirements
  learningOutcomes := u.learningOutcomes.getD c.learningOutcomes
  tags := u.tags.getD c.tags
  rating := u.rating.getD c.rating
  reviewCount := u.reviewCount.getD c.reviewCount
  enrollmentCount := u.enrollmentCount.getD c.enrollmentCount
  isPublished := u.isPublished.getD c.isPublished
  createdAt := u.createdAt.getD c.createdAt
  updatedAt := u.updatedAt.getD c.updatedAt

/-- Query filters accepted by CourseModel.findAll (src/types/course.types.ts
plus the role-gated includeUnpublished escape hatch). -/
structure CourseFilters where
  category : Option String := none
  level : Option CourseLevel := none
  instructorId : Option String := none
  search : Option String := none
  priceMin : Option Nat := none
  priceMax : Option Nat := none
  rating : Option Nat := none
  includeUnpublished : Bool := false
deriving DecidableEq

/-- JS truthiness of an optional string filter: the empty string is falsy, so
an empty filter value is skipped just as an absent one. -/
def optStrTruthy (o : Option String) : Option String :=
  match o with
  | some s => if s == "" then none else some s
  | none => none

/-- Case-insensitive substring test used by the course search filter. -/
def strContainsCI (s term : String) : Bool :=
  decide (term.toLower.toList <:+: s.toLower.toList)

namespace CourseModel

/-- CourseModel.findById. -/
def findById (m : Store Course) (id : String) : Option Course :=
  mapGet m id

/-- CourseModel.create: insert the assembled record under its id. -/
def create (m : Store Course) (course : Course) : Store Course :=
  mapSet m course.id course

/-- CourseModel.update: merge, refresh `updatedAt`, write back. -/
def update (m : Store Course) (id : String) (u : CoursePartial) (now : Nat) :
    Option Course × Store Course :=
  match mapGet m id with
  | none => (none, m)
  | some course =>
    let updatedCourse := { mergeCourse course u with updatedAt := now }
    (some updatedCourse, mapSet m id updatedCourse)

/-- CourseModel.findAll: linear scan with the optional filters; a truthiness
check guards each one (so empty-string and zero-rating filters are skipped),
and unpublished courses are dropped unless `includeUnpublished` is set. -/
def findAll (m : Store Course) (f : CourseFilters) : List Course :=
  let l := mapValues m
  let l := match optStrTruthy f.category with
    | some c => l.filter (fun x => x.category == c)
    | none => l
  let l := match f.level with
    | some lv => l.filter (fun x => x.level == lv)
    | none => l
  let l := match optStrTruthy f.instructorId with
    | some i => l.filter (fun x => x.instructorId == i)
    | none => l
  let l := match optStrTruthy f.search with
    | some sTerm => l.filter (fun x =>
        strContainsCI x.title sTerm || strContainsCI x.description sTerm
          || x.tags.any (fun t => strContainsCI t sTerm))
    | none => l
  let l := match f.priceMin with
    | some p => l.filter (fun x => p ≤ x.price)
    | none => l
  let l := match f.priceMax with
    | some p => l.filter (fun x => x.price ≤ p)
    | none => l
  let l := match f.rating with
    | some r => if r = 0 then l else l.filter (fun x => r ≤ x.rating)
    | none => l
  if f.includeUnpublished then l else l.filter (fun x => x.isPublished)

/-- CourseModel.incrementEnrollment: bump the counter and refresh the
timestamp in place (the source also returns a Bool the handlers ignore). -/
def incrementEnrollment (m : Store Course) (courseId : String) (now : Nat) : Store Course :=
  match mapGet m courseId with
  | none => m
  | some course =>
    mapSet m courseId
      { course with enrollmentCount := course.enrollmentCount + 1, updatedAt := now }

end CourseModel

/-! ### Request layer

Responses are modelled by their HTTP status and message (the response.utils
envelope); the middleware-populated `req.user` is an `Option AuthUser`. -/

/-- The HTTP response a handler sends: status code and message. -/
structure Resp where
  status : Nat
  message : String
deriving DecidableEq

/-- response.utils sendSuccess. -/
def sendSuccess (message : String) : Resp :=
  { status := 200, message := message }

/-- response.utils sendError. -/
def sendError (status : Nat) (message : String) : Resp :=
  { status := status, message := message }

/-- response.utils sendNotFound. -/
def sendNotFound (resource : String) : Resp :=
  sendError 404 (resource ++ " not found")

/-- response.utils sendForbidden. -/
def sendForbidden (message : String) : Resp :=
  sendError 403 message

/-- response.utils sendBadRequest. -/
def sendBadRequest (message : String) : Resp :=
  sendError 400 message

/-- The identity the authenticate middleware extracts from the bearer token. -/
structure AuthUser where
  userId : String
  email : String
  role : UserRole
deriving DecidableEq

/-- The three process-wide in-memory stores. -/
structure AppState where
  users : Store User
  courses : Store Course
  payments : Store PaymentIntent
deriving DecidableEq

/-- The `req.user?.role === UserRole.ADMIN` test (false for a missing caller). -/
def callerIsAdmin (caller : Option AuthUser) : Bool :=
  match caller with
  | some u => u.role == UserRole.admin
  | none => false

/-- The `req.user?.userId === ownerId` test (false for a missing caller). -/
def callerOwns (caller : Option AuthUser) (ownerId : String) : Bool :=
  match caller with
  | some u => u.userId == ownerId
  | none => false

/-- auth.middleware requireInstructorOrAdmin: 401 without a caller, 403 unless
the role is instructor or admin, otherwise fall through to the handler. -/
def requireInstructorOrAdmin (caller : Option AuthUser) : Option Resp :=
  match caller with
  | none => some (sendError 401 "Authentication required")
  | some u =>
    if u.role != UserRole.instructor && u.role != UserRole.admin then
      some (sendForbidden "Instructor or admin access required")
    else
      none

/-! ### AuthController (src/controllers/auth.controller.ts) -/

/-- SignupRequest from src/types/auth.types.ts. -/
structure SignupRequest where
  email : String
  password : String
  firstName : String
  lastName : String
  role : Option UserRole := none
deriving DecidableEq

/-- AuthController.signup: 409 when the email is taken, otherwise create the
user (bcrypt hashing modelled by the `hashedPassword` argument, id generation
by `freshId`) with role defaulting to Student, empty bio/skills/progress and
the default preference bundle.  Token issuance does not touch the stores. -/
def AuthController.signup (body : SignupRequest) (freshId hashedPassword : String)
    (now : Nat) (s : AppState) : Resp × AppState :=
  match UserModel.findByEmail s.users body.email with
  | some _ => (sendError 409 "User with this email already exists", s)
  | none =>
    let user : User :=
      { id := freshId, email := body.email, password := hashedPassword,
        firstName := body.firstName, lastName := body.lastName,
        role := body.role.getD UserRole.student,
        avatar := none, bio := some "", skills := [],
        preferences := UserModel.getDefaultPreferences, progress := [],
        createdAt := now, updatedAt := now }
    (sendSuccess "Account created successfully",
      { s with users := UserModel.create s.users user })

/-! ### CourseController (src/controllers/course.controller.ts) -/

/-- CreateCourseRequest from src/types/course.types.ts. -/
structure CreateCourseRequest where
  title : String
  description : String
  shortDescription : String
  category : String
  subcategory : String
  level : CourseLevel
  price : Nat
  requirements : List String
  learningOutcomes : List String
  tags : List String
deriving DecidableEq

namespace CourseController

/-- The store scan of CourseController.getAllCourses: the query filters are
forwarded with `includeUnpublished` set exactly when the caller is an Admin.
The handler then sorts and paginates this list, which cannot add members. -/
def getAllCoursesScan (caller : Option AuthUser) (filters : CourseFilters)
    (s : AppState) : List Course :=
  CourseModel.findAll s.courses
    { filters with includeUnpublished := callerIsAdmin caller }

/-- CourseController.getCourseById: 404 when absent; 403 when the course is
unpublished and the caller is neither an Admin nor the owning instructor;
otherwise 200 (the enrollment enrichment does not change the status). -/
def getCourseById (caller : Option AuthUser) (id : String) (s : AppState) : Resp :=
  match mapGet s.courses id with
  | none => sendNotFound "Course"
  | some course =>
    if !course.isPublished && !callerIsAdmin caller
        && !callerOwns caller course.instructorId then
      sendForbidden "Course not available"
    else
      sendSuccess "Course retrieved successfully"

/-- CourseController.createCourse: requires a caller and its user record, then
inserts a new unpublished course owned by the caller with zeroed stats. -/
def createCourse (caller : Option AuthUser) (body : CreateCourseRequest)
    (freshId : String) (now : Nat) (s : AppState) : Resp × AppState :=
  match caller with
  | none => (sendError 401 "Authentication required", s)
  | some u =>
    match mapGet s.users u.userId with
    | none => (sendNotFound "Instructor", s)
    | some instructor =>
      let course : Course :=
        { id := freshId, title := body.title, description := body.description,
          shortDescription := body.shortDescription,
          instructorId := u.userId,
          instructorName := instructor.firstName ++ " " ++ instructor.lastName,
          category := body.category, subcategory := body.subcategory,
          level := body.level, price := body.price, currency := "USD",
          thumbnail := "https://images.pexels.com/photos/270348/pexels-photo-270348.jpeg",
          previewVideo := none, duration := 0, modules := [],
          requirements := body.requirements,
          learningOutcomes := body.learningOutcomes, tags := body.tags,
          rating := 0, reviewCount := 0, enrollmentCount := 0,
          isPublished := false, createdAt := now, updatedAt := now }
      (sendSuccess "Course created successfully",
        { s with courses := CourseModel.create s.courses course })

/-- CourseController.updateCourse: 404 when the course is absent, 403 unless
the caller owns it or is an Admin, otherwise merge the partial update. -/
def updateCourse (caller : Option AuthUser) (id : String) (updates : CoursePartial)
    (now : Nat) (s : AppState) : Resp × AppState :=
  match caller with
  | none => (sendError 401 "Authentication required", s)
  | some u =>
    match mapGet s.courses id with
    | none => (sendNotFound "Course", s)
    | some course =>
      if course.instructorId != u.userId && u.role != UserRole.admin then
        (sendForbidden "You can only update your own courses", s)
      else
        match CourseModel.update s.courses id updates now with
        | (none, _) => (sendNotFound "Course", s)
        | (some _, courses1) =>
          (sendSuccess "Course updated successfully", { s with courses := courses1 })

/-- CourseController.enrollInCourse: 404s for missing course/user, 403 for an
unpublished course, 409 when a progress record for the course already exists;
free courses enroll directly; for paid courses the handler looks the payment
intent up by its Stripe id and only checks that its status is Succeeded before
writing the progress record and bumping the enrollment counter. -/
def enrollInCourse (caller : Option AuthUser) (id : String)
    (paymentIntentId : Option String) (now : Nat) (s : AppState) : Resp × AppState :=
  match caller with
  | none => (sendError 401 "Authentication required", s)
  | some u =>
    match mapGet s.courses id with
    | none => (sendNotFound "Course", s)
    | some course =>
      if !course.isPublished then
        (sendForbidden "Course is not available for enrollment", s)
      else
        match mapGet s.users u.userId with
        | none => (sendNotFound "User", s)
        | some user =>
          match findProgress user.progress id with
          | some _ => (sendError 409 "Already enrolled in this course", s)
          | none =>
            let enrollFields : ProgressPartial :=
              { courseId := some id, enrolledAt := some now,
                completedModules := some [], progressPercentage := some 0,
                lastAccessedAt := some now }
            if course.price = 0 then
              let users1 := (UserModel.updateProgress s.users u.userId id enrollFields now).2
              let courses1 := CourseModel.incrementEnrollment s.courses id now
              (sendSuccess "Enrolled in course successfully",
                { s with users := users1, courses := courses1 })
            else
              match paymentIntentId with
              | none => (sendError 400 "Payment required for paid courses", s)
              | some pid =>
                match PaymentModel.findByStripeId s.payments pid with
                | none => (sendError 400 "Payment not completed", s)
                | some payment =>
                  if payment.status != PaymentStatus.succeeded then
                    (sendError 400 "Payment not completed", s)
                  else
                    let users1 :=
                      (UserModel.updateProgress s.users u.userId id enrollFields now).2
                    let courses1 := CourseModel.incrementEnrollment s.courses id now
                    (sendSuccess "Enrolled in course successfully",
                      { s with users := users1, courses := courses1 })

end CourseController

/-- The POST /api/courses route: authenticate and requireInstructorOrAdmin run
before CourseController.createCourse. -/
def courseCreateRoute (caller : Option AuthUser) (body : CreateCourseRequest)
    (freshId : String) (now : Nat) (s : AppState) : Resp × AppState :=
  match requireInstructorOrAdmin caller with
  | some r => (r, s)
  | none => CourseController.createCourse caller body freshId now s

/-- The PUT /api/courses/:id route: authenticate and requireInstructorOrAdmin
run before CourseController.updateCourse. -/
def courseUpdateRoute (caller : Option AuthUser) (id : String) (updates : CoursePartial)
    (now : Nat) (s : AppState) : Resp × AppState :=
  match requireInstructorOrAdmin caller with
  | some r => (r, s)
  | none => CourseController.updateCourse caller id updates now s

/-! ### PaymentController (src/controllers/payment.controller.ts) -/

/-- A provider webhook event after signature verification: the handler reacts
to payment_intent.succeeded and payment_intent.payment_failed and logs any
other event type. -/
inductive StripeEvent where
  | paymentIntentSucceeded (stripeId : String)
  | paymentIntentFailed (stripeId : String)
  | otherEvent (eventType : String)
deriving DecidableEq

namespace PaymentController

/-- PaymentController.confirmPayment: looks the payment up by Stripe id,
requires the caller to own it, then persists whatever status the provider
reports (the `providerStatus` argument models the stripeService answer),
with no check of the previously stored status. -/
def confirmPayment (caller : Option AuthUser) (paymentIntentId : String)
    (providerStatus : PaymentStatus) (now : Nat) (s : AppState) : Resp × AppState :=
  match caller with
  | none => (sendError 401 "Authentication required", s)
  | some u =>
    match PaymentModel.findByStripeId s.payments paymentIntentId with
    | none => (sendNotFound "Payment", s)
    | some payment =>
      if payment.userId != u.userId then
        (sendError 403 "Access denied", s)
      else
        let payments1 :=
          (PaymentModel.update s.payments payment.id { status := some providerStatus } now).2
        if providerStatus = PaymentStatus.succeeded then
          (sendSuccess "Payment confirmed successfully", { s with payments := payments1 })
        else
          (sendError 400 "Payment failed", { s with payments := payments1 })

/-- PaymentController.refundPayment: looks the payment up by Stripe id,
requires owner or admin, rejects unless the stored status is Succeeded, and on
provider success (the `refundSucceeded` argument) persists Refunded. -/
def refundPayment (caller : Option AuthUser) (paymentIntentId : String)
    (refundSucceeded : Bool) (now : Nat) (s : AppState) : Resp × AppState :=
  match caller with
  | none => (sendError 401 "Authentication required", s)
  | some u =>
    match PaymentModel.findByStripeId s.payments paymentIntentId with
    | none => (sendNotFound "Payment", s)
    | some payment =>
      if payment.userId != u.userId && u.role != UserRole.admin then
        (sendError 403 "Access denied", s)
      else if payment.status != PaymentStatus.succeeded then
        (sendBadRequest "Only successful payments can be refunded", s)
      else if refundSucceeded then
        let payments1 :=
          (PaymentModel.update s.payments payment.id
            { status := some PaymentStatus.refunded } now).2
        (sendSuccess "Refund processed successfully", { s with payments := payments1 })
      else
        (sendError 500 "Failed to process refund", s)

/-- The payment-store action shared by both handled webhook branches: find the
local record by the pushed Stripe id and overwrite its status (no-op when no
record matches). -/
def webhookStatusStep (m : Store PaymentIntent) (sid : String) (σ : PaymentStatus)
    (now : Nat) : Store PaymentIntent :=
  match PaymentModel.findByStripeId m sid with
  | some payment => (PaymentModel.update m payment.id { status := some σ } now).2
  | none => m

/-- PaymentController.handleWebhook on a signature-verified event: a succeeded
or payment_failed event applies `webhookStatusStep` with the corresponding
status; any other event is only logged.  The handler always acknowledges 200. -/
def handleWebhook (event : StripeEvent) (now : Nat) (s : AppState) : Resp × AppState :=
  match event with
  | StripeEvent.paymentIntentSucceeded sid =>
    (sendSuccess "received",
      { s with payments := webhookStatusStep s.payments sid PaymentStatus.succeeded now })
  | StripeEvent.paymentIntentFailed sid =>
    (sendSuccess "received",
      { s with payments := webhookStatusStep s.payments sid PaymentStatus.failed now })
  | StripeEvent.otherEvent _ => (sendSuccess "received", s)

end PaymentController

/-! ### UserController (src/controllers/user.controller.ts) -/

namespace UserController

/-- UserController.updateProgress (PUT /users/progress/:courseId): forwards
the body fields with a fresh lastAccessedAt straight to
UserModel.updateProgress — no course, publication, payment or enrollment
check, and no enrollmentCount change. -/
def updateProgress (caller : Option AuthUser) (courseId : String)
    (completedModules : Option (List String)) (currentModule : Option String)
    (progressPercentage : Option Nat) (now : Nat) (s : AppState) : Resp × AppState :=
  match caller with
  | none => (sendError 401 "Authentication required", s)
  | some u =>
    let r := UserModel.updateProgress s.users u.userId courseId
      { completedModules := completedModules, currentModule := currentModule,
        progressPercentage := progressPercentage, lastAccessedAt := some now }
      now
    if r.1 then
      (sendSuccess "Progress updated successfully", { s with users := r.2 })
    else
      (sendNotFound "User", { s with users := r.2 })

/-- UserController.deleteAccount: deletes the caller record from the user
store, 404 when it did not exist; the course and payment stores are never
touched. -/
def deleteAccount (caller : Option AuthUser) (s : AppState) : Resp × AppState :=
  match caller with
  | none => (sendError 401 "Authentication required", s)
  | some u =>
    let r := UserModel.delete s.users u.userId
    if r.1 then
      (sendSuccess "Account deleted successfully", { s with users := r.2 })
    else
      (sendNotFound "User", { s with users := r.2 })

end UserController

/-! ### Concrete fixtures

Small record builders in the spirit of the initializeUsers/initializeCourses
demo seeds, used to build concrete states. -/

/-- A minimal concrete user record. -/
def mkUser (id email : String) (role : UserRole) : User :=
  { id := id, email := email, password := "hash", firstName := "F", lastName := "L",
    role := role, skills := [], preferences := UserModel.getDefaultPreferences,
    progress := [], createdAt := 0, updatedAt := 0 }

/-- A minimal concrete course record. -/
def mkCourse (id instructorId : String) (price : Nat) (published : Bool) : Course :=
  { id := id, title := "T", description := "D", shortDescription := "S",
    instructorId := instructorId, instructorName := "F L", category := "Programming",
    subcategory := "Web", level := CourseLevel.beginner, price := price,
    currency := "USD", thumbnail := "thumb", duration := 0, modules := [],
    requirements := [], learningOutcomes := [], tags := [], rating := 0,
    reviewCount := 0, enrollmentCount := 0, isPublished := published,
    createdAt := 0, updatedAt := 0 }

/-- A minimal concrete payment record. -/
def mkPayment (id userId courseId stripeId : String) (st : PaymentStatus) : PaymentIntent :=
  { id := id, amount := 100, currency := "usd", status := st, courseId := courseId,
    userId := userId, stripePaymentIntentId := stripeId, createdAt := 0, updatedAt := 0 }

/-- Authenticated caller u1 (student). -/
def callerU1 : AuthUser := { userId := "u1", email := "a@x.com", role := UserRole.student }

/-- Authenticated caller u2 (student). -/
def callerU2 : AuthUser := { userId := "u2", email := "b@x.com", role := UserRole.student }

/-- Authenticated caller i1 (instructor). -/
def callerI1 : AuthUser := { userId := "i1", email := "i@x.com", role := UserRole.instructor }

/-- Authenticated caller i2 (instructor). -/
def callerI2 : AuthUser := { userId := "i2", email := "j@x.com", role := UserRole.instructor }

/-- Authenticated caller ad (admin). -/
def callerAd : AuthUser := { userId := "ad", email := "ad@x.com", role := UserRole.admin }

/-- Two plain students and nothing else. -/
def stateTwoUsers : AppState :=
  { users := [("u1", mkUser "u1" "a@x.com" UserRole.student),
              ("u2", mkUser "u2" "b@x.com" UserRole.student)],
    courses := [], payments := [] }

/-- One student and one free published course. -/
def stateFreeCourse : AppState :=
  { users := [("u1", mkUser "u1" "a@x.com" UserRole.student)],
    courses := [("c1", mkCourse "c1" "i1" 0 true)],
    payments := [] }

/-- Two instructors, an admin and a paid course owned by the first instructor. -/
def stateOwnedCourse : AppState :=
  { users := [("i1", mkUser "i1" "i@x.com" UserRole.instructor),
              ("i2", mkUser "i2" "j@x.com" UserRole.instructor),
              ("ad", mkUser "ad" "ad@x.com" UserRole.admin)],
    courses := [("c1", mkCourse "c1" "i1" 50 true)],
    payments := [] }

/-- A single succeeded payment by u1 for c1. -/
def stateOnePayment : AppState :=
  { users := [], courses := [],
    payments := [("p1", mkPayment "p1" "u1" "c1" "pi_1" PaymentStatus.succeeded)] }

/-- Two students, two paid published courses, and a succeeded payment by u1
for c1 only. -/
def stateForeignPayment : AppState :=
  { users := [("u1", mkUser "u1" "a@x.com" UserRole.student),
              ("u2", mkUser "u2" "b@x.com" UserRole.student)],
    courses := [("c1", mkCourse "c1" "i1" 100 true),
                ("c2", mkCourse "c2" "i1" 200 true)],
    payments := [("p1", mkPayment "p1" "u1" "c1" "pi_1" PaymentStatus.succeeded)] }

/-- A single unpublished course owned by instructor i1. -/
def stateUnpublished : AppState :=
  { users := [], courses := [("c1", mkCourse "c1" "i1" 0 false)], payments := [] }

/-- A single published course (updatedAt 0). -/
def statePublished : AppState :=
  { users := [], courses := [("c1", mkCourse "c1" "i1" 0 true)], payments := [] }

/-- A minimal course-creation request body. -/
def reqCourse : CreateCourseRequest :=
  { title := "T", description := "D", shortDescription := "S",
    category := "Programming", subcategory := "Web", level := CourseLevel.beginner,
    price := 10, requirements := [], learningOutcomes := [], tags := [] }

/-! ### Store lemmas -/

theorem mapGet_mapSet_self {T : Type} (m : Store T) (k : String) (v : T) :
    mapGet (mapSet m k v) k = some v := by
  induction m with
  | nil => simp [mapSet, mapGet]
  | cons kp rest ih =>
    by_cases h : kp.1 = k
    · simp [mapSet, mapGet, h]
    · simp [mapSet, mapGet, h, ih]

theorem mapGet_mapSet_ne {T : Type} (m : Store T) (k k' : String) (v : T)
    (h : k' ≠ k) : mapGet (mapSet m k v) k' = mapGet m k' := by
  have h2 : ¬ k = k' := fun hh => h hh.symm
  induction m with
  | nil => simp [mapSet, mapGet, h2]
  | cons kp rest ih =>
    by_cases hk : kp.1 = k
    · simp [mapSet, mapGet, hk, h2]
    · by_cases hk' : kp.1 = k'
      · simp [mapSet, mapGet, hk, hk', h]
      · simp [mapSet, mapGet, hk, hk', ih]

theorem mapSet_mapSet {T : Type} (m : Store T) (k : String) (v1 v2 : T) :
    mapSet (mapSet m k v1) k v2 = mapSet m k v2 := by
  induction m with
  | nil => simp [mapSet]
  | cons kp rest ih =>
    by_cases h : kp.1 = k
    · simp [mapSet, h]
    · simp [mapSet, h, ih]

theorem mapSet_of_mapGet_none {T : Type} (m : Store T) (k : String) (v : T)
    (h : mapGet m k = none) : mapSet m k v = m ++ [(k, v)] := by
  induction m with
  | nil => simp [mapSet]
  | cons kp rest ih =>
    by_cases hk : kp.1 = k
    · simp [mapGet, hk] at h
    · simp [mapGet, hk] at h
      simp [mapSet, hk, ih h]

theorem mapGet_mapDelete_self {T : Type} (m : Store T) (k : String) :
    mapGet (mapDelete m k) k = none := by
  induction m with
  | nil => simp [mapDelete, mapGet]
  | cons kp rest ih =>
    by_cases h : kp.1 = k
    · simpa [mapDelete, h] using ih
    · simpa [mapDelete, mapGet, h] using ih

theorem mapGet_mapDelete_ne {T : Type} (m : Store T) (k k' : String)
    (h : k' ≠ k) : mapGet (mapDelete m k) k' = mapGet m k' := by
  have h3 : ¬ k = k' := fun hh => h hh.symm
  induction m with
  | nil => simp [mapDelete, mapGet]
  | cons kp rest ih =>
    by_cases hk : kp.1 = k
    · have hk' : ¬ kp.1 = k' := by
        rw [hk]
        exact h3
      simp only [mapDelete, List.filter_cons] at ih ⊢
      simp [hk, hk', h3, mapGet, ih]
    · by_cases hk' : kp.1 = k'
      · simp [mapDelete, List.filter_cons, hk, hk', h, mapGet]
      · simp only [mapDelete, List.filter_cons] at ih ⊢
        simp [hk, hk', mapGet, ih]

theorem mapDelete_of_mapGet_none {T : Type} (m : Store T) (k : String)
    (h : mapGet m k = none) : mapDelete m k = m := by
  induction m with
  | nil => simp [mapDelete]
  | cons kp rest ih =>
    by_cases hk : kp.1 = k
    · simp [mapGet, hk] at h
    · simp [mapGet, hk] at h
      have hd : mapDelete (kp :: rest) k = kp :: mapDelete rest k := by
        simp [mapDelete, List.filter_cons, hk]
      rw [hd, ih h]

theorem mapGet_some_key_mem {T : Type} (m : Store T) (k : String) (v : T)
    (h : mapGet m k = some v) : k ∈ m.map Prod.fst := by
  induction m with
  | nil => simp [mapGet] at h
  | cons kp rest ih =>
    by_cases hk : kp.1 = k
    · simp [hk]
    · simp [mapGet, hk] at h
      simp [ih h]

theorem mapGet_some_mem_values {T : Type} (m : Store T) (k : String) (v : T)
    (h : mapGet m k = some v) : v ∈ mapValues m := by
  induction m with
  | nil => simp [mapGet] at h
  | cons kp rest ih =>
    by_cases hk : kp.1 = k
    · simp [mapGet, hk] at h
      simp [mapValues, h]
    · simp [mapGet, hk] at h
      simp [mapValues] at ih ⊢
      exact Or.inr (ih h)

/-! ### Model-level lemmas -/

theorem paymentsWF_tail (kp : String × PaymentIntent) (rest : Store PaymentIntent)
    (h : paymentsWF (kp :: rest)) : paymentsWF rest := by
  obtain ⟨h1, h2⟩ := h
  refine ⟨(List.nodup_cons.mp (by simpa using h1)).2, ?_⟩
  intro x hx
  exact h2 x (List.mem_cons_of_mem kp hx)

theorem findByStripeId_mapGet_of_WF (m : Store PaymentIntent) (sid : String)
    (p : PaymentIntent) (hwf : paymentsWF m)
    (hf : PaymentModel.findByStripeId m sid = some p) : mapGet m p.id = some p := by
  induction m with
  | nil => simp [PaymentModel.findByStripeId] at hf
  | cons kp rest ih =>
    by_cases hs : kp.2.stripePaymentIntentId = sid
    · simp [PaymentModel.findByStripeId, hs] at hf
      have hid : p.id = kp.1 := by
        rw [← hf]
        exact hwf.2 kp (by simp)
      simp [mapGet, hid, hf]
    · simp [PaymentModel.findByStripeId, hs] at hf
      have hrest := ih (paymentsWF_tail kp rest hwf) hf
      have hmem : p.id ∈ rest.map Prod.fst := mapGet_some_key_mem rest p.id p hrest
      have hne : ¬ kp.1 = p.id := by
        intro hh
        have hnodup := hwf.1
        rw [List.map_cons, List.nodup_cons] at hnodup
        exact hnodup.1 (hh ▸ hmem)
      simp [mapGet, hne, hrest]

theorem findByStripeId_mapSet_status (m : Store PaymentIntent) (sid : String)
    (p q : PaymentIntent) (σ : PaymentStatus) (t : Nat)
    (hf : PaymentModel.findByStripeId m sid = some p)
    (hg : mapGet m p.id = some q) :
    ∃ p2, PaymentModel.findByStripeId
        (mapSet m p.id { q with status := σ, updatedAt := t }) sid = some p2
      ∧ p2.id = p.id := by
  induction m with
  | nil => simp [PaymentModel.findByStripeId] at hf
  | cons kp rest ih =>
    by_cases hs : kp.2.stripePaymentIntentId = sid
    · simp [PaymentModel.findByStripeId, hs] at hf
      by_cases hk : kp.1 = p.id
      · have hq : q = kp.2 := by
          simp [mapGet, hk] at hg
          exact hg.symm
        have hstripe : q.stripePaymentIntentId = sid := by
          rw [hq]
          exact hs
        refine ⟨{ q with status := σ, updatedAt := t }, ?_, by rw [hq, hf]⟩
        have hset : mapSet (kp :: rest) p.id { q with status := σ, updatedAt := t }
            = (p.id, { q with status := σ, updatedAt := t }) :: rest := by
          simp [mapSet, hk]
        rw [hset]
        simp [PaymentModel.findByStripeId, hstripe]
      · refine ⟨p, ?_, rfl⟩
        have hset : mapSet (kp :: rest) p.id { q with status := σ, updatedAt := t }
            = kp :: mapSet rest p.id { q with status := σ, updatedAt := t } := by
          simp [mapSet, hk]
        rw [hset]
        simp only [PaymentModel.findByStripeId, hs]
        simp [hf]
    · simp [PaymentModel.findByStripeId, hs] at hf
      by_cases hk : kp.1 = p.id
      · have hq : q = kp.2 := by
          simp [mapGet, hk] at hg
          exact hg.symm
        have hstripe : ¬ q.stripePaymentIntentId = sid := by
          rw [hq]
          exact hs
        refine ⟨p, ?_, rfl⟩
        have hset : mapSet (kp :: rest) p.id { q with status := σ, updatedAt := t }
            = (p.id, { q with status := σ, updatedAt := t }) :: rest := by
          simp [mapSet, hk]
        rw [hset]
        simp [PaymentModel.findByStripeId, hstripe, hf]
      · have hq : mapGet rest p.id = some q := by
          simpa [mapGet, hk] using hg
        obtain ⟨p2, h1, h2⟩ := ih hf hq
        refine ⟨p2, ?_, h2⟩
        have hset : mapSet (kp :: rest) p.id { q with status := σ, updatedAt := t }
            = kp :: mapSet rest p.id { q with status := σ, updatedAt := t } := by
          simp [mapSet, hk]
        rw [hset]
        simp [PaymentModel.findByStripeId, hs, h1]

theorem webhookStatusStep_idem (m : Store PaymentIntent) (sid : String)
    (σ : PaymentStatus) (t1 t2 : Nat) :
    PaymentController.webhookStatusStep
        (PaymentController.webhookStatusStep m sid σ t1) sid σ t2
      = PaymentController.webhookStatusStep m sid σ t2 := by
  cases hf : PaymentModel.findByStripeId m sid with
  | none =>
    unfold PaymentController.webhookStatusStep
    simp [hf]
  | some p =>
    cases hg : mapGet m p.id with
    | none =>
      unfold PaymentController.webhookStatusStep
      simp [hf, PaymentModel.update, hg]
    | some q =>
      obtain ⟨p2, hf2, hid⟩ :=
        findByStripeId_mapSet_status m sid p q σ t1 hf hg
      have hstep1 : PaymentController.webhookStatusStep m sid σ t1
          = mapSet m p.id { q with status := σ, updatedAt := t1 } := by
        unfold PaymentController.webhookStatusStep
        simp [hf, PaymentModel.update, hg, mergePayment]
      have hstep2 : PaymentController.webhookStatusStep m sid σ t2
          = mapSet m p.id { q with status := σ, updatedAt := t2 } := by
        unfold PaymentController.webhookStatusStep
        simp [hf, PaymentModel.update, hg, mergePayment]
      have hg2 : mapGet (mapSet m p.id { q with status := σ, updatedAt := t1 }) p2.id
          = some { q with status := σ, updatedAt := t1 } := by
        rw [hid]
        exact mapGet_mapSet_self m p.id _
      rw [hstep1, hstep2]
      unfold PaymentController.webhookStatusStep
      rw [hf2]
      simp only [PaymentModel.update, hg2, mergePayment, Option.getD_some, Option.getD_none]
      rw [hid, mapSet_mapSet]

theorem findByEmail_none_count (m : Store User) (e : String)
    (h : UserModel.findByEmail m e = none) : countEmail m e = 0 := by
  induction m with
  | nil => simp [countEmail, mapValues]
  | cons kp rest ih =>
    by_cases he : kp.2.email = e
    · simp [UserModel.findByEmail, he] at h
    · simp [UserModel.findByEmail, he] at h
      have := ih h
      simp only [countEmail, mapValues, List.map_cons, List.filter_cons] at this ⊢
      simp [he, this]

theorem findByEmail_append_of_none (m m2 : Store User) (e : String)
    (h : UserModel.findByEmail m e = none) :
    UserModel.findByEmail (m ++ m2) e = UserModel.findByEmail m2 e := by
  induction m with
  | nil => simp
  | cons kp rest ih =>
    by_cases he : kp.2.email = e
    · simp [UserModel.findByEmail, he] at h
    · simp [UserModel.findByEmail, he] at h
      simp [UserModel.findByEmail, he, ih h]

theorem countEmail_append (m m2 : Store User) (e : String) :
    countEmail (m ++ m2) e = countEmail m e + countEmail m2 e := by
  simp [countEmail, mapValues, List.filter_append]

theorem findProgress_none_count (l : List CourseProgress) (cid : String)
    (h : findProgress l cid = none) : countProgress l cid = 0 := by
  induction l with
  | nil => simp [countProgress]
  | cons p rest ih =>
    by_cases hc : p.courseId = cid
    · simp [findProgress, hc] at h
    · simp [findProgress, hc] at h
      have := ih h
      simp only [countProgress, List.filter_cons] at this ⊢
      simp [hc, this]

theorem findProgress_append_of_none (l l2 : List CourseProgress) (cid : String)
    (h : findProgress l cid = none) :
    findProgress (l ++ l2) cid = findProgress l2 cid := by
  induction l with
  | nil => simp
  | cons p rest ih =>
    by_cases hc : p.courseId = cid
    · simp [findProgress, hc] at h
    · simp [findProgress, hc] at h
      simp [findProgress, hc, ih h]

theorem countProgress_append (l l2 : List CourseProgress) (cid : String) :
    countProgress (l ++ l2) cid = countProgress l cid + countProgress l2 cid := by
  simp [countProgress, List.filter_append]

/-! ### Claim theorems -/

/-- C3: a first signup for an email not yet in the user store succeeds and
leaves exactly one user record with that email, and any later signup with the
same email returns Conflict (409) and leaves the user store unchanged, so no
second record with that email is ever created. -/
theorem c3_signup_email_unique (s : AppState) (body : SignupRequest)
    (freshId hashedPassword : String) (now : Nat)
    (h0 : UserModel.findByEmail s.users body.email = none)
    (hfresh : mapGet s.users freshId = none) :
    (AuthController.signup body freshId hashedPassword now s).1
        = sendSuccess "Account created successfully"
      ∧ countEmail (AuthController.signup body freshId hashedPassword now s).2.users
          body.email = 1
      ∧ ∀ (body2 : SignupRequest) (fid2 hash2 : String) (now2 : Nat),
          body2.email = body.email →
          AuthController.signup body2 fid2 hash2 now2
              (AuthController.signup body freshId hashedPassword now s).2
            = (sendError 409 "User with this email already exists",
               (AuthController.signup body freshId hashedPassword now s).2) := by
  have husers : (AuthController.signup body freshId hashedPassword now s).2.users
      = s.users ++
        [(freshId,
          { id := freshId, email := body.email, password := hashedPassword,
            firstName := body.firstName, lastName := body.lastName,
            role := body.role.getD UserRole.student,
            avatar := none, bio := some "", skills := [],
            preferences := UserModel.getDefaultPreferences, progress := [],
            createdAt := now, updatedAt := now })] := by
    simp only [AuthController.signup, h0, UserModel.create]
    exact mapSet_of_mapGet_none s.users freshId _ hfresh
  refine ⟨by simp [AuthController.signup, h0], ?_, ?_⟩
  · rw [husers, countEmail_append, findByEmail_none_count s.users body.email h0]
    simp [countEmail, mapValues]
  · intro body2 fid2 hash2 now2 he
    set s1 := (AuthController.signup body freshId hashedPassword now s).2 with hs1
    have hfind : UserModel.findByEmail s1.users body2.email
        = some { id := freshId, email := body.email, password := hashedPassword,
                 firstName := body.firstName, lastName := body.lastName,
                 role := body.role.getD UserRole.student,
                 avatar := none, bio := some "", skills := [],
                 preferences := UserModel.getDefaultPreferences, progress := [],
                 createdAt := now, updatedAt := now } := by
      rw [hs1, husers, he, findByEmail_append_of_none s.users _ body.email h0]
      simp [UserModel.findByEmail]
    simp [AuthController.signup, hfind]

/-- C3 witness: on the empty store, signing the email up once succeeds and the
replay returns 409 leaving the store as after the first call. -/
theorem c3_witness :
    (AuthController.signup
        { email := "a@x.com", password := "secret1", firstName := "A", lastName := "B" }
        "user_1" "h1" 0 { users := [], courses := [], payments := [] }).1
      = sendSuccess "Account created successfully"
    ∧ countEmail (AuthController.signup
        { email := "a@x.com", password := "secret1", firstName := "A", lastName := "B" }
        "user_1" "h1" 0 { users := [], courses := [], payments := [] }).2.users
        "a@x.com" = 1
    ∧ AuthController.signup
        { email := "a@x.com", password := "other2", firstName := "C", lastName := "D" }
        "user_2" "h2" 1
        (AuthController.signup
          { email := "a@x.com", password := "secret1", firstName := "A", lastName := "B" }
          "user_1" "h1" 0 { users := [], courses := [], payments := [] }).2
      = (sendError 409 "User with this email already exists",
         (AuthController.signup
           { email := "a@x.com", password := "secret1", firstName := "A", lastName := "B" }
           "user_1" "h1" 0 { users := [], courses := [], payments := [] }).2) := by
  have h := c3_signup_email_unique
    { users := [], courses := [], payments := [] }
    { email := "a@x.com", password := "secret1", firstName := "A", lastName := "B" }
    "user_1" "h1" 0 (by decide) (by decide)
  exact ⟨h.1, h.2.1, h.2.2
    { email := "a@x.com", password := "other2", firstName := "C", lastName := "D" }
    "user_2" "h2" 1 rfl⟩

/-- C9: account deletion by an authenticated caller succeeds exactly when the
user record existed, removes exactly that record from the user store, and
leaves the course store and the payment store untouched, so references to the
deleted user may dangle. -/
theorem c9_delete_account_frame (s : AppState) (u : AuthUser) :
    ((UserController.deleteAccount (some u) s).1
        = sendSuccess "Account deleted successfully"
      ↔ mapGet s.users u.userId ≠ none)
    ∧ mapGet (UserController.deleteAccount (some u) s).2.users u.userId = none
    ∧ (∀ k, k ≠ u.userId →
        mapGet (UserController.deleteAccount (some u) s).2.users k = mapGet s.users k)
    ∧ (UserController.deleteAccount (some u) s).2.courses = s.courses
    ∧ (UserController.deleteAccount (some u) s).2.payments = s.payments := by
  cases hh : mapGet s.users u.userId with
  | none =>
    have hdel : UserController.deleteAccount (some u) s
        = (sendNotFound "User", { s with users := mapDelete s.users u.userId }) := by
      simp [UserController.deleteAccount, UserModel.delete, mapHas, hh]
    rw [hdel]
    refine ⟨?_, ?_, ?_, rfl, rfl⟩
    · simp [sendNotFound, sendError, sendSuccess]
    · exact mapGet_mapDelete_self s.users u.userId
    · intro k hk
      exact mapGet_mapDelete_ne s.users u.userId k hk
  | some v =>
    have hdel : UserController.deleteAccount (some u) s
        = (sendSuccess "Account deleted successfully",
           { s with users := mapDelete s.users u.userId }) := by
      simp [UserController.deleteAccount, UserModel.delete, mapHas, hh]
    rw [hdel]
    refine ⟨?_, ?_, ?_, rfl, rfl⟩
    · simp [hh]
    · exact mapGet_mapDelete_self s.users u.userId
    · intro k hk
      exact mapGet_mapDelete_ne s.users u.userId k hk

/-- C9 witness: deleting u1 from the two-user state succeeds, removes u1,
keeps u2 and leaves courses and payments as they were. -/
theorem c9_witness :
    (UserController.deleteAccount (some callerU1) stateTwoUsers).1
      = sendSuccess "Account deleted successfully"
    ∧ mapGet (UserController.deleteAccount (some callerU1) stateTwoUsers).2.users "u1" = none
    ∧ mapGet (UserController.deleteAccount (some callerU1) stateTwoUsers).2.users "u2"
      = mapGet stateTwoUsers.users "u2"
    ∧ (UserController.deleteAccount (some callerU1) stateTwoUsers).2.courses
      = stateTwoUsers.courses
    ∧ (UserController.deleteAccount (some callerU1) stateTwoUsers).2.payments
      = stateTwoUsers.payments := by
  have h := c9_delete_account_frame stateTwoUsers callerU1
  exact ⟨h.1.mpr (by decide), h.2.1, h.2.2.1 "u2" (by decide), h.2.2.2.1, h.2.2.2.2⟩

/-- C10: for an existing user with no progress record for the course, the
progress-update endpoint reports success and appends a brand-new
CourseProgress record for that (user, course) pair, while the course store
(hence every enrollmentCount) and the payment store stay untouched — no
course-existence, publication, payment or enrollment check is consulted. -/
theorem c10_progress_update_bypasses_enrollment (s : AppState) (u : AuthUser)
    (cid : String) (completedModules : Option (List String))
    (currentModule : Option String) (progressPercentage : Option Nat) (now : Nat)
    (usr : User)
    (hu : mapGet s.users u.userId = some usr)
    (hp : findProgress usr.progress cid = none) :
    (UserController.updateProgress (some u) cid completedModules currentModule
        progressPercentage now s).1 = sendSuccess "Progress updated successfully"
    ∧ (mapGet (UserController.updateProgress (some u) cid completedModules currentModule
        progressPercentage now s).2.users u.userId).map
          (fun x => x.progress.map CourseProgress.courseId)
      = some (usr.progress.map CourseProgress.courseId ++ [cid])
    ∧ (UserController.updateProgress (some u) cid completedModules currentModule
        progressPercentage now s).2.courses = s.courses
    ∧ (UserController.updateProgress (some u) cid completedModules currentModule
        progressPercentage now s).2.payments = s.payments := by
  have hstep : UserController.updateProgress (some u) cid completedModules currentModule
      progressPercentage now s
      = (sendSuccess "Progress updated successfully",
         { s with
           users := mapSet s.users u.userId
             { usr with
               progress := usr.progress ++
                 [pushProgress cid
                   { completedModules := completedModules,
                     currentModule := currentModule,
                     progressPercentage := progressPercentage,
                     lastAccessedAt := some now }
                   now],
               updatedAt := now } }) := by
    simp [UserController.updateProgress, UserModel.updateProgress, hu, hp]
  rw [hstep]
  refine ⟨rfl, ?_, rfl, rfl⟩
  rw [mapGet_mapSet_self]
  simp [pushProgress]

/-- C10 witness: updating progress for a course id that exists nowhere, from
the two-user state, succeeds and creates the orphan progress record. -/
theorem c10_witness :
    (UserController.updateProgress (some callerU1) "ghost" none none (some 40) 7
        stateTwoUsers).1
      = sendSuccess "Progress updated successfully"
    ∧ (mapGet (UserController.updateProgress (some callerU1) "ghost" none none (some 40) 7
        stateTwoUsers).2.users "u1").map (fun x => x.progress.map CourseProgress.courseId)
      = some ["ghost"]
    ∧ (UserController.updateProgress (some callerU1) "ghost" none none (some 40) 7
        stateTwoUsers).2.courses
      = stateTwoUsers.courses := by
  have h := c10_progress_update_bypasses_enrollment stateTwoUsers callerU1
    "ghost" none none (some 40) 7 (mkUser "u1" "a@x.com" UserRole.student)
    (by decide) (by decide)
  exact ⟨h.1, h.2.1, h.2.2.1⟩

/-- C6 counterexample: the course stored under c1 has update timestamp 0; an
update call issued at clock time 0 (the same tick, which `new Date()` permits)
leaves the timestamp read back by findById at 0, not strictly greater than the
previous value — refuting the unconditional strict increase. -/
theorem c6_same_tick_timestamp :
    (mapGet statePublished.courses "c1").map Course.updatedAt = some 0
    ∧ (mapGet (CourseModel.update statePublished.courses "c1"
        { price := some 5 } 0).2 "c1").map Course.updatedAt = some 0
    ∧ ¬ (0 : Nat) < 0 := by
  decide

/-- C6 (amended): update followed by findById returns exactly the merged
record — every field supplied by the partial replaces the stored one, every
omitted field is unchanged — with the update timestamp set to the time of the
call; the timestamp is therefore strictly greater than the previous one
exactly when the call happens at a strictly later clock time (two calls on the
same tick leave it equal). -/
theorem c6_update_findById_roundtrip (m : Store Course) (id : String)
    (u : CoursePartial) (now : Nat) (c : Course) (h : mapGet m id = some c) :
    ∃ c2, (CourseModel.update m id u now).1 = some c2
      ∧ mapGet (CourseModel.update m id u now).2 id = some c2
      ∧ c2 = { mergeCourse c u with updatedAt := now }
      ∧ c2.title = u.title.getD c.title
      ∧ c2.description = u.description.getD c.description
      ∧ c2.shortDescription = u.shortDescription.getD c.shortDescription
      ∧ c2.instructorId = u.instructorId.getD c.instructorId
      ∧ c2.instructorName = u.instructorName.getD c.instructorName
      ∧ c2.category = u.category.getD c.category
      ∧ c2.subcategory = u.subcategory.getD c.subcategory
      ∧ c2.level = u.level.getD c.level
      ∧ c2.price = u.price.getD c.price
      ∧ c2.currency = u.currency.getD c.currency
      ∧ c2.thumbnail = u.thumbnail.getD c.thumbnail
      ∧ c2.duration = u.duration.getD c.duration
      ∧ c2.modules = u.modules.getD c.modules
      ∧ c2.requirements = u.requirements.getD c.requirements
      ∧ c2.learningOutcomes = u.learningOutcomes.getD c.learningOutcomes
      ∧ c2.tags = u.tags.getD c.tags
      ∧ c2.rating = u.rating.getD c.rating
      ∧ c2.reviewCount = u.reviewCount.getD c.reviewCount
      ∧ c2.enrollmentCount = u.enrollmentCount.getD c.enrollmentCount
      ∧ c2.isPublished = u.isPublished.getD c.isPublished
      ∧ c2.updatedAt = now
      ∧ (c.updatedAt < now → c.updatedAt < c2.updatedAt) := by
  refine ⟨{ mergeCourse c u with updatedAt := now }, ?_, ?_, rfl,
    rfl, rfl, rfl, rfl, rfl, rfl, rfl, rfl, rfl, rfl, rfl, rfl, rfl, rfl, rfl,
    rfl, rfl, rfl, rfl, rfl, rfl, fun hlt => hlt⟩
  · simp [CourseModel.update, h]
  · simp only [CourseModel.update, h]
    exact mapGet_mapSet_self m id _

/-- C6 witness: updating the price of the stored course at clock time 3 is
read back merged, with the new price, the old title and timestamp 3 > 0. -/
theorem c6_witness :
    ((CourseModel.update statePublished.courses "c1" { price := some 5 } 3).1).map
        Course.price = some 5
    ∧ ((CourseModel.update statePublished.courses "c1" { price := some 5 } 3).1).map
        Course.title = some "T"
    ∧ (mapGet (CourseModel.update statePublished.courses "c1"
        { price := some 5 } 3).2 "c1").map Course.updatedAt = some 3 := by
  obtain ⟨c2, h1, h2, h3, hrest⟩ := c6_update_findById_roundtrip
    statePublished.courses "c1" { price := some 5 } 3
    (mkCourse "c1" "i1" 0 true) (by decide)
  rw [h1, h2, h3]
  refine ⟨?_, ?_, ?_⟩ <;> decide

/-- C5 counterexample: the owning instructor of an unpublished course does see
it through detail retrieval but does not get it from the course listing (the
listing scan passes includeUnpublished only for Admin), so the claimed
listing-and-detail visibility for the owner is false. -/
theorem c5_owner_missing_from_listing :
    CourseController.getCourseById (some callerI1) "c1" stateUnpublished
      = sendSuccess "Course retrieved successfully"
    ∧ (mkCourse "c1" "i1" 0 false) ∉
        CourseController.getAllCoursesScan (some callerI1) {} stateUnpublished
    ∧ CourseController.getAllCoursesScan (some callerI1) {} stateUnpublished = [] := by
  decide

/-- C5 (amended): for an unpublished course, detail retrieval succeeds exactly
for an Admin or the owning instructor, while the course listing scan contains
the course exactly when the caller is an Admin — the owning instructor does
not see their own unpublished course in the listing. -/
theorem c5_unpublished_visibility (s : AppState) (caller : Option AuthUser)
    (cid : String) (c : Course) (hc : mapGet s.courses cid = some c)
    (hunpub : c.isPublished = false) :
    (CourseController.getCourseById caller cid s
        = sendSuccess "Course retrieved successfully"
      ↔ (callerIsAdmin caller = true ∨ callerOwns caller c.instructorId = true))
    ∧ (c ∈ CourseController.getAllCoursesScan caller {} s
      ↔ callerIsAdmin caller = true) := by
  constructor
  · simp only [CourseController.getCourseById, hc, hunpub]
    cases hA : callerIsAdmin caller <;>
      cases hO : callerOwns caller c.instructorId <;>
        simp [sendForbidden, sendError, sendSuccess]
  · simp only [CourseController.getAllCoursesScan, CourseModel.findAll, optStrTruthy]
    cases hA : callerIsAdmin caller
    · simp [List.mem_filter, hunpub]
    · simp
      exact mapGet_some_mem_values s.courses cid c hc

/-- C5 witness: an Admin sees the unpublished course both in the listing scan
and through detail retrieval, while an anonymous caller is denied. -/
theorem c5_witness :
    CourseController.getCourseById (some callerAd) "c1" stateUnpublished
      = sendSuccess "Course retrieved successfully"
    ∧ (mkCourse "c1" "i1" 0 false) ∈
        CourseController.getAllCoursesScan (some callerAd) {} stateUnpublished
    ∧ ¬ CourseController.getCourseById none "c1" stateUnpublished
        = sendSuccess "Course retrieved successfully" := by
  have hA := c5_unpublished_visibility stateUnpublished (some callerAd) "c1"
    (mkCourse "c1" "i1" 0 false) (by decide) (by decide)
  have hN := c5_unpublished_visibility stateUnpublished none "c1"
    (mkCourse "c1" "i1" 0 false) (by decide) (by decide)
  refine ⟨hA.1.mpr (Or.inl (by decide)), hA.2.mpr (by decide), ?_⟩
  intro hcontra
  have hcase := hN.1.mp hcontra
  simp [callerIsAdmin, callerOwns] at hcase

theorem enroll_writes_aux (s : AppState) (u : AuthUser) (cid : String) (now : Nat)
    (course : Course) (user : User) (s2 : AppState)
    (hpub : course.isPublished = true)
    (hp : findProgress user.progress cid = none)
    (hs2u : s2.users = mapSet s.users u.userId
      { user with
        progress := user.progress ++
          [{ courseId := cid, enrolledAt := now, completedModules := [],
             currentModule := none, progressPercentage := 0, lastAccessedAt := now,
             certificateEarned := none, certificateUrl := none }],
        updatedAt := now })
    (hs2c : s2.courses = mapSet s.courses cid
      { course with enrollmentCount := course.enrollmentCount + 1, updatedAt := now }) :
    (mapGet s2.users u.userId).map (fun x => countProgress x.progress cid) = some 1
    ∧ ∀ (pid2 : Option String) (now2 : Nat),
        CourseController.enrollInCourse (some u) cid pid2 now2 s2
          = (sendError 409 "Already enrolled in this course", s2) := by
  have h2 : mapGet s2.users u.userId = some
      { user with
        progress := user.progress ++
          [{ courseId := cid, enrolledAt := now, completedModules := [],
             currentModule := none, progressPercentage := 0, lastAccessedAt := now,
             certificateEarned := none, certificateUrl := none }],
        updatedAt := now } := by
    rw [hs2u]
    exact mapGet_mapSet_self s.users u.userId _
  have h1 : mapGet s2.courses cid = some
      { course with enrollmentCount := course.enrollmentCount + 1, updatedAt := now } := by
    rw [hs2c]
    exact mapGet_mapSet_self s.courses cid _
  constructor
  · rw [h2]
    simp only [Option.map_some']
    rw [countProgress_append, findProgress_none_count user.progress cid hp]
    simp [countProgress]
  · intro pid2 now2
    have h3 : findProgress (user.progress ++
        [{ courseId := cid, enrolledAt := now, completedModules := [],
           currentModule := none, progressPercentage := 0, lastAccessedAt := now,
           certificateEarned := none, certificateUrl := none }]) cid
        = some { courseId := cid, enrolledAt := now, completedModules := [],
                 currentModule := none, progressPercentage := 0, lastAccessedAt := now,
                 certificateEarned := none, certificateUrl := none } := by
      rw [findProgress_append_of_none user.progress _ cid hp]
      simp [findProgress]
    simp [CourseController.enrollInCourse, h1, h2, h3, hpub]

/-- C4: whenever an enroll call reports success, the caller afterwards holds
exactly one CourseProgress record for that course, and any repeated enroll
call for the same pair returns Conflict (409) and leaves the whole state — in
particular the existing record — unchanged. -/
theorem c4_enroll_unique_progress (s : AppState) (u : AuthUser) (cid : String)
    (pid : Option String) (now : Nat)
    (h : (CourseController.enrollInCourse (some u) cid pid now s).1
      = sendSuccess "Enrolled in course successfully") :
    (mapGet (CourseController.enrollInCourse (some u) cid pid now s).2.users
        u.userId).map (fun x => countProgress x.progress cid) = some 1
    ∧ ∀ (pid2 : Option String) (now2 : Nat),
        CourseController.enrollInCourse (some u) cid pid2 now2
            (CourseController.enrollInCourse (some u) cid pid now s).2
          = (sendError 409 "Already enrolled in this course",
             (CourseController.enrollInCourse (some u) cid pid now s).2) := by
  cases hc : mapGet s.courses cid with
  | none =>
    simp [CourseController.enrollInCourse, hc, sendNotFound, sendError, sendSuccess] at h
  | some course =>
    cases hpub : course.isPublished with
    | false =>
      simp [CourseController.enrollInCourse, hc, hpub, sendForbidden, sendError,
        sendSuccess] at h
    | true =>
      cases hu : mapGet s.users u.userId with
      | none =>
        simp [CourseController.enrollInCourse, hc, hpub, hu, sendNotFound, sendError,
          sendSuccess] at h
      | some user =>
        cases hp : findProgress user.progress cid with
        | some pr =>
          simp [CourseController.enrollInCourse, hc, hpub, hu, hp, sendError,
            sendSuccess] at h
        | none =>
          by_cases hprice : course.price = 0
          · have hstate : (CourseController.enrollInCourse (some u) cid pid now s).2
                = { s with
                    users := (UserModel.updateProgress s.users u.userId cid
                      { courseId := some cid, enrolledAt := some now,
                        completedModules := some [], progressPercentage := some 0,
                        lastAccessedAt := some now } now).2,
                    courses := CourseModel.incrementEnrollment s.courses cid now } := by
              simp [CourseController.enrollInCourse, hc, hpub, hu, hp, hprice]
            rw [hstate]
            exact enroll_writes_aux s u cid now course user _ hpub hp
              (by simp [UserModel.updateProgress, hu, hp, pushProgress])
              (by simp [CourseModel.incrementEnrollment, hc])
          · cases hpid : pid with
            | none =>
              simp [CourseController.enrollInCourse, hc, hpub, hu, hp, hprice, hpid,
                sendError, sendSuccess] at h
            | some pid1 =>
              cases hpay : PaymentModel.findByStripeId s.payments pid1 with
              | none =>
                simp [CourseController.enrollInCourse, hc, hpub, hu, hp, hprice, hpid,
                  hpay, sendError, sendSuccess] at h
              | some payment =>
                by_cases hst : payment.status = PaymentStatus.succeeded
                · have hstate : (CourseController.enrollInCourse (some u) cid (some pid1)
                        now s).2
                      = { s with
                          users := (UserModel.updateProgress s.users u.userId cid
                            { courseId := some cid, enrolledAt := some now,
                              completedModules := some [], progressPercentage := some 0,
                              lastAccessedAt := some now } now).2,
                          courses := CourseModel.incrementEnrollment s.courses cid now } := by
                    simp [CourseController.enrollInCourse, hc, hpub, hu, hp, hprice,
                      hpay, hst]
                  rw [hstate]
                  exact enroll_writes_aux s u cid now course user _ hpub hp
                    (by simp [UserModel.updateProgress, hu, hp, pushProgress])
                    (by simp [CourseModel.incrementEnrollment, hc])
                · simp [CourseController.enrollInCourse, hc, hpub, hu, hp, hprice, hpid,
                    hpay, hst, sendError, sendSuccess] at h

/-- C4 witness: enrolling u1 in the free published course succeeds, leaves one
progress record, and the repeated enroll returns 409 with the state intact. -/
theorem c4_witness :
    (mapGet (CourseController.enrollInCourse (some callerU1) "c1" none 5
        stateFreeCourse).2.users "u1").map (fun x => countProgress x.progress "c1")
      = some 1
    ∧ CourseController.enrollInCourse (some callerU1) "c1" none 6
        (CourseController.enrollInCourse (some callerU1) "c1" none 5 stateFreeCourse).2
      = (sendError 409 "Already enrolled in this course",
         (CourseController.enrollInCourse (some callerU1) "c1" none 5 stateFreeCourse).2) := by
  have h := c4_enroll_unique_progress stateFreeCourse callerU1 "c1" none 5 (by decide)
  exact ⟨h.1, h.2 none 6⟩

/-- C8: a Student calling course-create is rejected with Forbidden (403); an
Instructor or Admin whose user record exists succeeds; an Instructor updating
a course owned by someone else is rejected with Forbidden (403); the owning
Instructor or an Admin updating it succeeds. -/
theorem c8_course_authorization (s : AppState) (u : AuthUser)
    (body : CreateCourseRequest) (freshId : String) (now : Nat)
    (cid : String) (upd : CoursePartial) (now2 : Nat) (c : Course) (usr : User) :
    (u.role = UserRole.student →
      courseCreateRoute (some u) body freshId now s
        = (sendForbidden "Instructor or admin access required", s))
    ∧ ((u.role = UserRole.instructor ∨ u.role = UserRole.admin) →
        mapGet s.users u.userId = some usr →
        (courseCreateRoute (some u) body freshId now s).1
          = sendSuccess "Course created successfully")
    ∧ (u.role = UserRole.instructor →
        mapGet s.courses cid = some c →
        ¬ c.instructorId = u.userId →
        courseUpdateRoute (some u) cid upd now2 s
          = (sendForbidden "You can only update your own courses", s))
    ∧ (mapGet s.courses cid = some c →
        (u.role = UserRole.admin ∨ (u.role = UserRole.instructor ∧ c.instructorId = u.userId)) →
        (courseUpdateRoute (some u) cid upd now2 s).1
          = sendSuccess "Course updated successfully") := by
  refine ⟨?_, ?_, ?_, ?_⟩
  · intro hr
    simp [courseCreateRoute, requireInstructorOrAdmin, hr]
  · intro hr husr
    cases hr with
    | inl hi =>
      simp [courseCreateRoute, requireInstructorOrAdmin, hi,
        CourseController.createCourse, husr]
    | inr ha =>
      simp [courseCreateRoute, requireInstructorOrAdmin, ha,
        CourseController.createCourse, husr]
  · intro hr hcourse hown
    simp [courseUpdateRoute, requireInstructorOrAdmin, hr,
      CourseController.updateCourse, hcourse, hown]
  · intro hcourse hcase
    cases hcase with
    | inl ha =>
      simp [courseUpdateRoute, requireInstructorOrAdmin, ha,
        CourseController.updateCourse, hcourse, CourseModel.update]
    | inr hio =>
      simp [courseUpdateRoute, requireInstructorOrAdmin, hio.1,
        CourseController.updateCourse, hcourse, hio.2, CourseModel.update]

/-- C8 witness: on the owned-course state, the student is forbidden to create,
the instructor creates, the foreign instructor is forbidden to update c1, and
the owner and the admin both update it. -/
theorem c8_witness :
    courseCreateRoute (some callerU1) reqCourse "cN" 9 stateOwnedCourse
      = (sendForbidden "Instructor or admin access required", stateOwnedCourse)
    ∧ (courseCreateRoute (some callerI1) reqCourse "cN" 9 stateOwnedCourse).1
      = sendSuccess "Course created successfully"
    ∧ courseUpdateRoute (some callerI2) "c1" {} 9 stateOwnedCourse
      = (sendForbidden "You can only update your own courses", stateOwnedCourse)
    ∧ (courseUpdateRoute (some callerI1) "c1" {} 9 stateOwnedCourse).1
      = sendSuccess "Course updated successfully"
    ∧ (courseUpdateRoute (some callerAd) "c1" {} 9 stateOwnedCourse).1
      = sendSuccess "Course updated successfully" := by
  refine ⟨?_, ?_, ?_, ?_, ?_⟩
  · exact (c8_course_authorization stateOwnedCourse callerU1 reqCourse "cN" 9 "c1" {} 9
      (mkCourse "c1" "i1" 50 true) (mkUser "i1" "i@x.com" UserRole.instructor)).1 rfl
  · exact (c8_course_authorization stateOwnedCourse callerI1 reqCourse "cN" 9 "c1" {} 9
      (mkCourse "c1" "i1" 50 true) (mkUser "i1" "i@x.com" UserRole.instructor)).2.1
      (Or.inl rfl) (by decide)
  · exact (c8_course_authorization stateOwnedCourse callerI2 reqCourse "cN" 9 "c1" {} 9
      (mkCourse "c1" "i1" 50 true) (mkUser "i2" "j@x.com" UserRole.instructor)).2.2.1
      rfl (by decide) (by decide)
  · exact (c8_course_authorization stateOwnedCourse callerI1 reqCourse "cN" 9 "c1" {} 9
      (mkCourse "c1" "i1" 50 true) (mkUser "i1" "i@x.com" UserRole.instructor)).2.2.2
      (by decide) (Or.inr ⟨rfl, by decide⟩)
  · exact (c8_course_authorization stateOwnedCourse callerAd reqCourse "cN" 9 "c1" {} 9
      (mkCourse "c1" "i1" 50 true) (mkUser "ad" "ad@x.com" UserRole.admin)).2.2.2
      (by decide) (Or.inl rfl)

/-- C7: webhook handling is idempotent — replaying the identical
signature-verified event over the state produced by its first processing
yields exactly the state of a single processing, and the replay is
acknowledged with 200 rather than an error. -/
theorem c7_webhook_idempotent (e : StripeEvent) (t1 t2 : Nat) (s : AppState) :
    PaymentController.handleWebhook e t2 (PaymentController.handleWebhook e t1 s).2
      = PaymentController.handleWebhook e t2 s
    ∧ (PaymentController.handleWebhook e t2
        (PaymentController.handleWebhook e t1 s).2).1 = sendSuccess "received" := by
  cases e with
  | paymentIntentSucceeded sid =>
    simp [PaymentController.handleWebhook, webhookStatusStep_idem]
  | paymentIntentFailed sid =>
    simp [PaymentController.handleWebhook, webhookStatusStep_idem]
  | otherEvent t =>
    simp [PaymentController.handleWebhook]

/-- C2 counterexample: the stored payment p1 is Succeeded, yet a
payment_intent.payment_failed webhook for its Stripe id moves it to Failed —
a Succeeded to Failed transition the claim rules out. -/
theorem c2_succeeded_to_failed_by_webhook :
    (mapGet stateOnePayment.payments "p1").map PaymentIntent.status
      = some PaymentStatus.succeeded
    ∧ (mapGet (PaymentController.handleWebhook
        (StripeEvent.paymentIntentFailed "pi_1") 3 stateOnePayment).2.payments
        "p1").map PaymentIntent.status = some PaymentStatus.failed := by
  decide

/-- C2 (amended): among confirm, refund and webhook only the refund handler
guards the stored status: on a well-formed payment store, whenever a refund
call changes a stored record, the record was Succeeded and becomes Refunded.
Confirm and webhook overwrite the local status with whatever the provider
reports, so Succeeded can move to Failed (or Pending/Canceled) through them. -/
theorem c2_refund_only_guarded_transition (s : AppState) (caller : Option AuthUser)
    (pid : String) (refundOk : Bool) (now : Nat) (k : String) (p p2 : PaymentIntent)
    (hwf : paymentsWF s.payments)
    (hp : mapGet s.payments k = some p)
    (hp2 : mapGet (PaymentController.refundPayment caller pid refundOk now s).2.payments k
      = some p2)
    (hne : ¬ p2.status = p.status) :
    p.status = PaymentStatus.succeeded ∧ p2.status = PaymentStatus.refunded := by
  cases caller with
  | none =>
    simp [PaymentController.refundPayment] at hp2
    rw [hp] at hp2
    cases hp2
    exact absurd rfl hne
  | some u =>
    cases hf : PaymentModel.findByStripeId s.payments pid with
    | none =>
      simp [PaymentController.refundPayment, hf] at hp2
      rw [hp] at hp2
      cases hp2
      exact absurd rfl hne
    | some pay =>
      have hpay : mapGet s.payments pay.id = some pay :=
        findByStripeId_mapGet_of_WF s.payments pid pay hwf hf
      have key : (PaymentController.refundPayment (some u) pid refundOk now s).2.payments
            = s.payments
          ∨ (pay.status = PaymentStatus.succeeded
             ∧ (PaymentController.refundPayment (some u) pid refundOk now s).2.payments
               = mapSet s.payments pay.id
                   { pay with status := PaymentStatus.refunded, updatedAt := now }) := by
        simp only [PaymentController.refundPayment, hf]
        split
        · left
          rfl
        · split
          · left
            rfl
          · split
            · right
              rename_i hcond hstat _
              refine ⟨by simpa using hstat, ?_⟩
              simp [PaymentModel.update, hpay, mergePayment]
            · left
              rfl
      cases key with
      | inl hsame =>
        rw [hsame, hp] at hp2
        cases hp2
        exact absurd rfl hne
      | inr hdone =>
        obtain ⟨hsucc, hpays⟩ := hdone
        rw [hpays] at hp2
        by_cases hk : k = pay.id
        · subst hk
          rw [mapGet_mapSet_self] at hp2
          cases hp2
          rw [hp] at hpay
          cases hpay
          exact ⟨hsucc, rfl⟩
        · rw [mapGet_mapSet_ne s.payments pay.id k _ hk] at hp2
          rw [hp] at hp2
          cases hp2
          exact absurd rfl hne

/-- C2 witness: refunding the succeeded payment p1 changes it, and the theorem
yields that the old status was Succeeded and the new one is Refunded. -/
theorem c2_witness :
    (mkPayment "p1" "u1" "c1" "pi_1" PaymentStatus.succeeded).status
      = PaymentStatus.succeeded
    ∧ ({ mkPayment "p1" "u1" "c1" "pi_1" PaymentStatus.succeeded with
         status := PaymentStatus.refunded, updatedAt := 4 } : PaymentIntent).status
      = PaymentStatus.refunded := by
  exact c2_refund_only_guarded_transition stateOnePayment (some callerU1) "pi_1" true 4
    "p1" (mkPayment "p1" "u1" "c1" "pi_1" PaymentStatus.succeeded)
    { mkPayment "p1" "u1" "c1" "pi_1" PaymentStatus.succeeded with
      status := PaymentStatus.refunded, updatedAt := 4 }
    (by decide) (by decide) (by decide) (by decide)

/-- C1: the paid-course enroll handler accepts a Succeeded payment that
belongs to a different user and a different course: u2 enrolls in c2 by
quoting the Stripe id of the payment u1 made for c1, even though no Succeeded
payment by u2 for c2 exists — the CourseProgress is written and the
enrollmentCount incremented, contradicting the claimed (user, course) check. -/
theorem c1_enroll_accepts_foreign_payment :
    PaymentModel.findSuccessfulPayment stateForeignPayment.payments "u2" "c2" = none
    ∧ (CourseController.enrollInCourse (some callerU2) "c2" (some "pi_1") 8
        stateForeignPayment).1 = sendSuccess "Enrolled in course successfully"
    ∧ (mapGet (CourseController.enrollInCourse (some callerU2) "c2" (some "pi_1") 8
        stateForeignPayment).2.users "u2").map
          (fun x => x.progress.map CourseProgress.courseId) = some ["c2"]
    ∧ (mapGet (CourseController.enrollInCourse (some callerU2) "c2" (some "pi_1") 8
        stateForeignPayment).2.courses "c2").map Course.enrollmentCount = some 1 := by
  decide

end SkillForge
